import Mathlib

/-!
# Smart Parking Lot Management System — verification development

Shallow embedding of `src/parking,py.py` (class `SmartParkingSystem`).

Modelling conventions:
* Timestamps and durations are rationals (`ℚ`), measured in hours; the code's
  wall-clock reads (`datetime.datetime.now()`) become explicit `now` parameters.
* Python `float` arithmetic is modelled exactly over `ℚ`; `round(x, 2)` is
  modelled as rounding to 2 decimal places with `round2` below.  For the
  non-negative amounts arising here this realises round-half-away-from-zero,
  one of the two conventions the design document sanctions.
* The slot dictionary `{1: ..., 2: ..., ..., total_slots: ...}` (insertion
  order 1, 2, ...) is modelled as a list of `Option Occupancy`, list index
  `i` holding slot `i + 1`; `dict.get(slot)` becomes `getSlot`, which yields
  `none` for every key outside `[1, length]` exactly as `dict.get` does.
* The methods that mutate `self` and return a message become functions from
  the state to (result, new state); the informative content of the returned
  message (assigned slot, receipt fields, report fields) is kept, its string
  rendering is not.
-/

namespace SmartParking

/-- One occupancy record, as stored in `self.parking_slots[slot]`:
`{'vehicle_no': ..., 'type': ..., 'entry_time': ...}`. -/
structure Occupancy where
  vehicle_no : String
  vtype : String
  entry_time : ℚ
deriving Repr, DecidableEq

/-- A per-class pricing entry `{'base': ..., 'hourly': ...}`. -/
structure Rates where
  base : ℚ
  hourly : ℚ
deriving Repr, DecidableEq

/-- The pricing table set in `__init__` (lines 13–18); it is identical for
every instance and never mutated, so it is a top-level function.  `none`
models a key that is absent from the dict. -/
def pricing (t : String) : Option Rates :=
  if t = "bike" then some ⟨10, 5⟩
  else if t = "car" then some ⟨20, 10⟩
  else if t = "ev" then some ⟨25, 12⟩
  else if t = "heavy" then some ⟨50, 25⟩
  else none

/-- The numeric fields of the text block built by `daily_report`
(lines 103–110): vehicle count, revenue, average, peak occupancy, capacity. -/
structure Report where
  vehicles : ℕ
  revenue : ℚ
  avg : ℚ
  peak : ℕ
  total : ℕ
deriving Repr, DecidableEq

/-- The mutable state of a `SmartParkingSystem` instance. -/
structure SmartParkingSystem where
  total_slots : ℕ
  parking_slots : List (Option Occupancy)
  revenue_today : ℚ
  vehicles_today : ℕ
  daily_records : List Report
deriving Repr, DecidableEq

/-- `__init__` (lines 6–11): `total_slots` slots, all free, zero counters. -/
def init (total_slots : ℕ) : SmartParkingSystem :=
  { total_slots := total_slots
    parking_slots := List.replicate total_slots none
    revenue_today := 0
    vehicles_today := 0
    daily_records := [] }

/-- `self.parking_slots.get(slot)`: the dict's keys are `1, ..., length`, so
any key outside that range yields `None`. -/
def SmartParkingSystem.getSlot (s : SmartParkingSystem) (slot : ℤ) : Option Occupancy :=
  if 1 ≤ slot ∧ slot ≤ (s.parking_slots.length : ℤ) then
    s.parking_slots.getD (slot - 1).toNat none
  else none

/-- The scan inside `find_free_slot` (lines 20–24): walk the slots in key
order starting at key `i`, returning the first free key. -/
def findFreeSlotAux : List (Option Occupancy) → ℕ → Option ℕ
  | [], _ => none
  | none :: _, i => some i
  | some _ :: rest, i => findFreeSlotAux rest (i + 1)

/-- `find_free_slot` (lines 20–24): first free slot in ascending key order. -/
def SmartParkingSystem.find_free_slot (s : SmartParkingSystem) : Option ℕ :=
  findFreeSlotAux s.parking_slots 1

/-- The three error messages the methods can return, as typed failures
(the spec's `InvalidClass`, `FacilityFull`, `SlotEmpty`). -/
inductive ParkError
  | invalidClass
  | facilityFull
  | slotEmpty
deriving Repr, DecidableEq

/-- `round(x, 2)`: round to 2 decimal places.  `round` on `ℚ` is
`⌊x + 1/2⌋`, i.e. round-half-away-from-zero on the non-negative amounts
produced here. -/
def round2 (q : ℚ) : ℚ := ((round (q * 100) : ℤ) : ℚ) / 100

/-- `vehicle_entry` (lines 26–45).  Result: the assigned slot and entry
timestamp on success, a typed error otherwise, paired with the new state. -/
def SmartParkingSystem.vehicle_entry (s : SmartParkingSystem)
    (vehicle_no vehicle_type : String) (now : ℚ) :
    Except ParkError (ℕ × ℚ) × SmartParkingSystem :=
  if (pricing vehicle_type).isNone then (.error .invalidClass, s)
  else
    match s.find_free_slot with
    | none => (.error .facilityFull, s)
    | some free_slot =>
        (.ok (free_slot, now),
         { s with
            parking_slots := s.parking_slots.set (free_slot - 1)
              (some ⟨vehicle_no, vehicle_type, now⟩)
            vehicles_today := s.vehicles_today + 1 })

/-- `calculate_charges` (lines 47–61).  On an empty (or invalid) slot the
source returns the sentinel `(0.0, None)`; otherwise the rounded charge and
the exit timestamp.  The `self.pricing[...]` lookup is total in the source
only because occupancies are created with validated classes; `getD ⟨0, 0⟩`
makes it total here without changing any reachable behaviour. -/
def SmartParkingSystem.calculate_charges (s : SmartParkingSystem)
    (slot : ℤ) (now : ℚ) : ℚ × Option ℚ :=
  match s.getSlot slot with
  | none => (0, none)
  | some v =>
      let duration_hours := now - v.entry_time
      let rates := (pricing v.vtype).getD ⟨0, 0⟩
      let charges :=
        if duration_hours ≤ 2 then rates.base
        else rates.base + (duration_hours - 2) * rates.hourly
      (round2 charges, some now)

/-- The receipt data in the message returned by `vehicle_exit`
(lines 77–82). -/
structure Receipt where
  vehicle_no : String
  vtype : String
  entry_time : ℚ
  exit_time : ℚ
  duration : ℚ
  charges : ℚ
deriving Repr, DecidableEq

/-- `vehicle_exit` (lines 63–82): fails on an empty slot, otherwise accrues
the charge into the revenue accumulator, frees the slot, and returns the
receipt. -/
def SmartParkingSystem.vehicle_exit (s : SmartParkingSystem)
    (slot : ℤ) (now : ℚ) : Except ParkError Receipt × SmartParkingSystem :=
  match s.getSlot slot with
  | none => (.error .slotEmpty, s)
  | some v =>
      let charges := (s.calculate_charges slot now).1
      (.ok ⟨v.vehicle_no, v.vtype, v.entry_time, now, now - v.entry_time, charges⟩,
       { s with
          revenue_today := s.revenue_today + charges
          parking_slots := s.parking_slots.set (slot - 1).toNat none })

/-- `daily_report` (lines 97–112): builds the report and appends it to
`daily_records`. -/
def SmartParkingSystem.daily_report (s : SmartParkingSystem) :
    Report × SmartParkingSystem :=
  let vehicles := s.vehicles_today
  let avg := if vehicles ≠ 0 then s.revenue_today / (vehicles : ℚ) else 0
  let peak := s.parking_slots.countP (fun v => v.isSome)
  let report : Report :=
    { vehicles := vehicles
      revenue := s.revenue_today
      avg := avg
      peak := peak
      total := s.total_slots }
  (report, { s with daily_records := s.daily_records ++ [report] })

/-- One operation of the Facility Ledger interface, wall-clock reads made
explicit. -/
inductive Op
  | entry (vehicle_no vehicle_type : String) (now : ℚ)
  | leave (slot : ℤ) (now : ℚ)
  | report

/-- Apply one operation to the state. -/
def step (s : SmartParkingSystem) : Op → SmartParkingSystem
  | .entry vno vt now => (s.vehicle_entry vno vt now).2
  | .leave slot now => (s.vehicle_exit slot now).2
  | .report => s.daily_report.2

/-- Run a sequence of operations from a state. -/
def runFrom (s : SmartParkingSystem) : List Op → SmartParkingSystem
  | [] => s
  | op :: rest => runFrom (step s op) rest

/-- The charges computed by the successful releases along a run, in order. -/
def exitCharges (s : SmartParkingSystem) : List Op → List ℚ
  | [] => []
  | .entry vno vt now :: rest => exitCharges (s.vehicle_entry vno vt now).2 rest
  | .report :: rest => exitCharges s.daily_report.2 rest
  | .leave slot now :: rest =>
      (match (s.vehicle_exit slot now).1 with
       | .ok r => [r.charges]
       | .error _ => []) ++ exitCharges (s.vehicle_exit slot now).2 rest

/-- Modelled from the spec (§4.1 `compute_charge`): base charge when the
duration is at most 2 hours, base plus overage at the hourly rate beyond
that, the amount rounded to 2 decimal places. -/
def chargeSpec (r : Rates) (duration : ℚ) : ℚ :=
  if duration ≤ 2 then round2 r.base
  else round2 (r.base + (duration - 2) * r.hourly)

/-! ## Basic lemmas about slot access -/

theorem getSlot_out_of_range (s : SmartParkingSystem) (j : ℤ)
    (h : j < 1 ∨ (s.parking_slots.length : ℤ) < j) : s.getSlot j = none := by
  unfold SmartParkingSystem.getSlot
  rw [if_neg]
  omega

theorem getSlot_in_range (s : SmartParkingSystem) (j : ℤ)
    (h1 : 1 ≤ j) (h2 : j ≤ (s.parking_slots.length : ℤ)) :
    s.getSlot j = s.parking_slots.getD (j - 1).toNat none := by
  unfold SmartParkingSystem.getSlot
  rw [if_pos ⟨h1, h2⟩]

theorem getD_set_self (l : List (Option Occupancy)) (n : ℕ) (a : Option Occupancy)
    (h : n < l.length) : (l.set n a).getD n none = a := by
  simp [List.getD_eq_getElem?_getD, List.getElem?_set_self h]

theorem getD_set_ne (l : List (Option Occupancy)) (n m : ℕ) (a : Option Occupancy)
    (h : n ≠ m) : (l.set n a).getD m none = l.getD m none := by
  simp [List.getD_eq_getElem?_getD, List.getElem?_set_ne h]

theorem getSlot_set_eq (s s' : SmartParkingSystem) (n : ℕ) (a : Option Occupancy)
    (hl : s'.parking_slots = s.parking_slots.set n a)
    (h : n < s.parking_slots.length) :
    s'.getSlot ((n : ℤ) + 1) = a := by
  unfold SmartParkingSystem.getSlot
  rw [hl, List.length_set, if_pos (by omega)]
  have he : ((n : ℤ) + 1 - 1).toNat = n := by omega
  rw [he]
  exact getD_set_self _ _ _ h

theorem getSlot_set_eq_of (s s' : SmartParkingSystem) (n : ℕ) (a : Option Occupancy)
    (hl : s'.parking_slots = s.parking_slots.set n a)
    (h : n < s.parking_slots.length) (j : ℤ) (hj : j = (n : ℤ) + 1) :
    s'.getSlot j = a := by
  subst hj
  exact getSlot_set_eq s s' n a hl h

theorem getSlot_set_ne (s s' : SmartParkingSystem) (n : ℕ) (a : Option Occupancy)
    (hl : s'.parking_slots = s.parking_slots.set n a)
    (j : ℤ) (h : j ≠ (n : ℤ) + 1) :
    s'.getSlot j = s.getSlot j := by
  unfold SmartParkingSystem.getSlot
  rw [hl, List.length_set]
  split
  · next hin => exact getD_set_ne _ _ _ _ (by omega)
  · rfl

/-! ## Correctness of the free-slot scan -/

theorem findFreeSlotAux_some (l : List (Option Occupancy)) (i k : ℕ)
    (h : findFreeSlotAux l i = some k) :
    i ≤ k ∧ k - i < l.length ∧ l.getD (k - i) none = none ∧
      ∀ j < k - i, l.getD j none ≠ none := by
  induction l generalizing i with
  | nil => simp [findFreeSlotAux] at h
  | cons a rest ih =>
      cases a with
      | none =>
          simp only [findFreeSlotAux, Option.some.injEq] at h
          subst h
          refine ⟨le_refl _, by simp, by simp, ?_⟩
          intro j hj
          omega
      | some o =>
          simp only [findFreeSlotAux] at h
          obtain ⟨h1, h2, h3, h4⟩ := ih (i + 1) h
          refine ⟨by omega, by simp; omega, ?_, ?_⟩
          · have he : k - i = (k - (i + 1)) + 1 := by omega
            rw [he, List.getD_cons_succ]
            exact h3
          · intro j hj
            cases j with
            | zero => simp
            | succ m =>
                rw [List.getD_cons_succ]
                exact h4 m (by omega)

theorem findFreeSlotAux_none (l : List (Option Occupancy)) (i : ℕ)
    (h : findFreeSlotAux l i = none) :
    ∀ j < l.length, l.getD j none ≠ none := by
  induction l generalizing i with
  | nil => intro j hj; simp at hj
  | cons a rest ih =>
      cases a with
      | none => simp [findFreeSlotAux] at h
      | some o =>
          simp only [findFreeSlotAux] at h
          intro j hj
          cases j with
          | zero => simp
          | succ m =>
              rw [List.getD_cons_succ]
              exact ih (i + 1) h m (by simpa using hj)

theorem find_free_slot_some (s : SmartParkingSystem) (k : ℕ)
    (h : s.find_free_slot = some k) :
    1 ≤ k ∧ (k : ℤ) ≤ (s.parking_slots.length : ℤ) ∧ s.getSlot (k : ℤ) = none ∧
      ∀ j : ℤ, 1 ≤ j → j < (k : ℤ) → s.getSlot j ≠ none := by
  obtain ⟨h1, h2, h3, h4⟩ := findFreeSlotAux_some _ _ _ h
  have hk1 : 1 ≤ k := h1
  have hklen : (k : ℤ) ≤ (s.parking_slots.length : ℤ) := by omega
  refine ⟨hk1, hklen, ?_, ?_⟩
  · rw [getSlot_in_range s (k : ℤ) (by omega) hklen]
    have he : ((k : ℤ) - 1).toNat = k - 1 := by omega
    rw [he]
    exact h3
  · intro j hj1 hj2
    rw [getSlot_in_range s j hj1 (by omega)]
    exact h4 (j - 1).toNat (by omega)

theorem find_free_slot_none (s : SmartParkingSystem)
    (h : s.find_free_slot = none) :
    ∀ j : ℤ, 1 ≤ j → j ≤ (s.parking_slots.length : ℤ) → s.getSlot j ≠ none := by
  intro j hj1 hj2
  rw [getSlot_in_range s j hj1 hj2]
  exact findFreeSlotAux_none _ _ h (j - 1).toNat (by omega)

/-! ## Unfolding lemmas for the operations -/

theorem vehicle_entry_invalid (s : SmartParkingSystem) (vno vt : String) (now : ℚ)
    (h : pricing vt = none) :
    s.vehicle_entry vno vt now = (.error .invalidClass, s) := by
  unfold SmartParkingSystem.vehicle_entry
  rw [h]
  rfl

theorem vehicle_entry_full (s : SmartParkingSystem) (vno vt : String) (now : ℚ)
    (hvt : pricing vt ≠ none) (hf : s.find_free_slot = none) :
    s.vehicle_entry vno vt now = (.error .facilityFull, s) := by
  unfold SmartParkingSystem.vehicle_entry
  rw [if_neg (by simp [Option.isNone_iff_eq_none, hvt]), hf]

theorem vehicle_entry_found (s : SmartParkingSystem) (vno vt : String) (now : ℚ)
    (k : ℕ) (hvt : pricing vt ≠ none) (hk : s.find_free_slot = some k) :
    s.vehicle_entry vno vt now =
      (.ok (k, now),
       { s with
          parking_slots := s.parking_slots.set (k - 1) (some ⟨vno, vt, now⟩)
          vehicles_today := s.vehicles_today + 1 }) := by
  unfold SmartParkingSystem.vehicle_entry
  rw [if_neg (by simp [Option.isNone_iff_eq_none, hvt]), hk]

theorem calculate_charges_empty_eq (s : SmartParkingSystem) (slot : ℤ) (now : ℚ)
    (h : s.getSlot slot = none) :
    s.calculate_charges slot now = (0, none) := by
  unfold SmartParkingSystem.calculate_charges
  rw [h]

theorem calculate_charges_occupied_eq (s : SmartParkingSystem) (slot : ℤ) (now : ℚ)
    (v : Occupancy) (hv : s.getSlot slot = some v) :
    s.calculate_charges slot now =
      (round2
        (if now - v.entry_time ≤ 2 then ((pricing v.vtype).getD ⟨0, 0⟩).base
         else ((pricing v.vtype).getD ⟨0, 0⟩).base +
           (now - v.entry_time - 2) * ((pricing v.vtype).getD ⟨0, 0⟩).hourly),
       some now) := by
  unfold SmartParkingSystem.calculate_charges
  rw [hv]

theorem vehicle_exit_empty_eq (s : SmartParkingSystem) (slot : ℤ) (now : ℚ)
    (h : s.getSlot slot = none) :
    s.vehicle_exit slot now = (.error .slotEmpty, s) := by
  unfold SmartParkingSystem.vehicle_exit
  rw [h]

theorem vehicle_exit_occupied_eq (s : SmartParkingSystem) (slot : ℤ) (now : ℚ)
    (v : Occupancy) (hv : s.getSlot slot = some v) :
    s.vehicle_exit slot now =
      (.ok ⟨v.vehicle_no, v.vtype, v.entry_time, now, now - v.entry_time,
            (s.calculate_charges slot now).1⟩,
       { s with
          revenue_today := s.revenue_today + (s.calculate_charges slot now).1
          parking_slots := s.parking_slots.set (slot - 1).toNat none }) := by
  unfold SmartParkingSystem.vehicle_exit
  rw [hv]

/-! ## Pricing and rounding facts -/

theorem pricing_cases (t : String) (r : Rates) (h : pricing t = some r) :
    r = ⟨10, 5⟩ ∨ r = ⟨20, 10⟩ ∨ r = ⟨25, 12⟩ ∨ r = ⟨50, 25⟩ := by
  unfold pricing at h
  split_ifs at h <;> simp_all

theorem rates_getD_nonneg (t : String) :
    0 ≤ ((pricing t).getD ⟨0, 0⟩).base ∧ 0 ≤ ((pricing t).getD ⟨0, 0⟩).hourly := by
  unfold pricing
  split_ifs <;> norm_num

theorem round2_int_le (z : ℤ) (q : ℚ) (h : (z : ℚ) ≤ q) : (z : ℚ) ≤ round2 q := by
  unfold round2
  rw [le_div_iff₀ (by norm_num : (0 : ℚ) < 100)]
  have h1 : z * 100 ≤ round (q * 100) := by
    rw [round_eq, Int.le_floor]
    push_cast
    linarith
  calc (z : ℚ) * 100 = ((z * 100 : ℤ) : ℚ) := by push_cast; ring
    _ ≤ ((round (q * 100) : ℤ) : ℚ) := by exact_mod_cast h1

theorem round2_nonneg (q : ℚ) (h : 0 ≤ q) : 0 ≤ round2 q := by
  have h2 := round2_int_le 0 q (by exact_mod_cast h)
  exact_mod_cast h2

theorem calculate_charges_nonneg (s : SmartParkingSystem) (slot : ℤ) (now : ℚ) :
    0 ≤ (s.calculate_charges slot now).1 := by
  cases hv : s.getSlot slot with
  | none => rw [calculate_charges_empty_eq s slot now hv]
  | some v =>
      rw [calculate_charges_occupied_eq s slot now v hv]
      obtain ⟨hb, hh⟩ := rates_getD_nonneg v.vtype
      apply round2_nonneg
      split
      · exact hb
      · next hd =>
          have hm := mul_nonneg (by linarith : (0 : ℚ) ≤ now - v.entry_time - 2) hh
          linarith

/-! ## Revenue bookkeeping -/

theorem vehicle_entry_revenue (s : SmartParkingSystem) (vno vt : String) (now : ℚ) :
    ((s.vehicle_entry vno vt now).2).revenue_today = s.revenue_today := by
  unfold SmartParkingSystem.vehicle_entry
  split
  · rfl
  · cases s.find_free_slot <;> rfl

theorem daily_report_revenue (s : SmartParkingSystem) :
    (s.daily_report.2).revenue_today = s.revenue_today := rfl

theorem vehicle_exit_revenue (s : SmartParkingSystem) (slot : ℤ) (now : ℚ) :
    ((s.vehicle_exit slot now).2).revenue_today =
      s.revenue_today +
        (match (s.vehicle_exit slot now).1 with
         | .ok r => r.charges
         | .error _ => 0) := by
  cases hv : s.getSlot slot with
  | none => rw [vehicle_exit_empty_eq s slot now hv]; simp
  | some v => rw [vehicle_exit_occupied_eq s slot now v hv]

theorem exit_result_charge_nonneg (s : SmartParkingSystem) (slot : ℤ) (now : ℚ) :
    0 ≤ (match (s.vehicle_exit slot now).1 with
         | .ok r => r.charges
         | .error _ => 0) := by
  cases hv : s.getSlot slot with
  | none => rw [vehicle_exit_empty_eq s slot now hv]
  | some v =>
      rw [vehicle_exit_occupied_eq s slot now v hv]
      exact calculate_charges_nonneg s slot now

theorem step_revenue_mono (s : SmartParkingSystem) (op : Op) :
    s.revenue_today ≤ (step s op).revenue_today := by
  cases op with
  | entry vno vt now => rw [step, vehicle_entry_revenue]
  | report => rw [step, daily_report_revenue]
  | leave slot now =>
      rw [step, vehicle_exit_revenue]
      have h := exit_result_charge_nonneg s slot now
      linarith

theorem runFrom_revenue (ops : List Op) : ∀ s : SmartParkingSystem,
    (runFrom s ops).revenue_today = s.revenue_today + (exitCharges s ops).sum := by
  induction ops with
  | nil => intro s; simp [runFrom, exitCharges]
  | cons op rest ih =>
      intro s
      cases op with
      | entry vno vt now =>
          show (runFrom (s.vehicle_entry vno vt now).2 rest).revenue_today = _
          rw [ih, exitCharges, vehicle_entry_revenue]
      | report =>
          show (runFrom s.daily_report.2 rest).revenue_today = _
          rw [ih, exitCharges, daily_report_revenue]
      | leave slot now =>
          show (runFrom (s.vehicle_exit slot now).2 rest).revenue_today = _
          rw [ih, exitCharges, vehicle_exit_revenue]
          cases hr : (s.vehicle_exit slot now).1 with
          | error e => simp [hr]
          | ok r => simp [hr]; ring

theorem vehicle_exit_ok_charges (s : SmartParkingSystem) (slot : ℤ) (now : ℚ)
    (r : Receipt) (h : (s.vehicle_exit slot now).1 = .ok r) :
    r.charges = (s.calculate_charges slot now).1 := by
  cases hv : s.getSlot slot with
  | none =>
      rw [vehicle_exit_empty_eq s slot now hv] at h
      cases h
  | some v =>
      rw [vehicle_exit_occupied_eq s slot now v hv] at h
      cases h
      rfl

theorem exitCharges_sum_nonneg (ops : List Op) :
    ∀ s : SmartParkingSystem, 0 ≤ (exitCharges s ops).sum := by
  induction ops with
  | nil => intro s; simp [exitCharges]
  | cons op rest ih =>
      intro s
      cases op with
      | entry vno vt now => exact ih _
      | report => exact ih _
      | leave slot now =>
          show 0 ≤ ((match (s.vehicle_exit slot now).1 with
                     | .ok r => [r.charges]
                     | .error _ => []) ++
                    exitCharges (s.vehicle_exit slot now).2 rest).sum
          rw [List.sum_append]
          have hrest := ih (s.vehicle_exit slot now).2
          cases hr : (s.vehicle_exit slot now).1 with
          | error e => simpa using hrest
          | ok r =>
              have hc := vehicle_exit_ok_charges s slot now r hr
              have h0 := calculate_charges_nonneg s slot now
              simp only [List.sum_cons, List.sum_nil]
              linarith

theorem countP_eq_sum (l : List (Option Occupancy)) :
    l.countP (fun v => v.isSome) =
      ∑ j ∈ Finset.range l.length,
        if (l.getD j none).isSome then 1 else 0 := by
  induction l with
  | nil => simp
  | cons a rest ih =>
      rw [List.countP_cons, List.length_cons, Finset.sum_range_succ']
      simp only [List.getD_cons_succ, List.getD_cons_zero]
      rw [ih]

/-! ## Concrete states used to exercise the theorems -/

/-- A two-slot system with a car parked in slot 1 since time 0 and slot 2
free. -/
def exSys : SmartParkingSystem :=
  { total_slots := 2
    parking_slots := [some ⟨"KA01", "car", 0⟩, none]
    revenue_today := 0
    vehicles_today := 1
    daily_records := [] }

/-! ## The claims -/

/-- C1: for every occupied slot, the charge computation returns the base
charge of the occupant's class when the duration is at most 2 hours, and the
base charge plus (duration − 2) times the class's hourly rate otherwise, the
amount rounded to 2 decimal places (`round2`, realising
round-half-away-from-zero on these non-negative amounts — one of the two
conventions the design document sanctions for the host's rounding). -/
theorem c1_charge_formula (s : SmartParkingSystem) (slot : ℤ) (now : ℚ)
    (v : Occupancy) (r : Rates)
    (hv : s.getSlot slot = some v) (hr : pricing v.vtype = some r) :
    (s.calculate_charges slot now).1 = chargeSpec r (now - v.entry_time) := by
  rw [calculate_charges_occupied_eq s slot now v hv, hr]
  unfold chargeSpec
  by_cases hd : now - v.entry_time ≤ 2 <;> simp [hd]

/-- Witness for C1: the car parked in slot 1 at time 0, charged at time 3
(duration 3 h), pays the spec formula's amount. -/
theorem c1_charge_formula_witness :
    (exSys.calculate_charges 1 3).1 = chargeSpec ⟨20, 10⟩ (3 - 0) ∧
    chargeSpec ⟨20, 10⟩ (3 - 0) = 30 :=
  ⟨c1_charge_formula exSys 1 3 ⟨"KA01", "car", 0⟩ ⟨20, 10⟩ (by decide) (by decide),
   by norm_num [chargeSpec, round2, round_eq]⟩

/-- C3: releasing a slot that is free, never occupied, or out of the range
[1, number of slots] fails with `SlotEmpty` and returns the state unchanged
(slot table, revenue accumulator, vehicle counter and report history are all
those of `s`). -/
theorem c3_exit_empty_no_mutation (s : SmartParkingSystem) (slot : ℤ) (now : ℚ)
    (h : slot < 1 ∨ (s.parking_slots.length : ℤ) < slot ∨ s.getSlot slot = none) :
    s.vehicle_exit slot now = (.error .slotEmpty, s) := by
  have hnone : s.getSlot slot = none := by
    rcases h with h | h | h
    · exact getSlot_out_of_range s slot (Or.inl h)
    · exact getSlot_out_of_range s slot (Or.inr h)
    · exact h
  exact vehicle_exit_empty_eq s slot now hnone

/-- Witness for C3: releasing the free slot 2 of `exSys` fails with
`SlotEmpty` and does not change the state. -/
theorem c3_exit_empty_no_mutation_witness :
    exSys.vehicle_exit 2 5 = (.error .slotEmpty, exSys) :=
  c3_exit_empty_no_mutation exSys 2 5 (Or.inr (Or.inr (by decide)))

/-- C4 counterexample: `calculate_charges` on the empty slot 1 of a fresh
two-slot system does not produce a typed `SlotEmpty` failure; it returns the
numeric sentinel `(0, none)` — the source's `return 0.0, None` — whose first
component is an ordinary amount. -/
theorem c4_counterexample :
    (init 2).calculate_charges 1 0 = (0, none) := by decide

/-- C4 (amended): on a slot with no occupancy, `calculate_charges` returns
the sentinel `(0, none)` (amount 0.0, no exit timestamp) rather than a typed
failure; the typed `SlotEmpty` rejection is performed by `vehicle_exit`,
which checks the slot before any charge computation. -/
theorem c4_empty_sentinel (s : SmartParkingSystem) (slot : ℤ) (now : ℚ)
    (h : s.getSlot slot = none) :
    s.calculate_charges slot now = (0, none) ∧
    (s.vehicle_exit slot now).1 = .error .slotEmpty := by
  refine ⟨calculate_charges_empty_eq s slot now h, ?_⟩
  rw [vehicle_exit_empty_eq s slot now h]

/-- Witness for C4 (amended): the free slot 2 of `exSys` at time 7. -/
theorem c4_empty_sentinel_witness :
    exSys.calculate_charges 2 7 = (0, none) ∧
    (exSys.vehicle_exit 2 7).1 = .error .slotEmpty :=
  c4_empty_sentinel exSys 2 7 (by decide)

/-- C7: `daily_report` reports average-per-vehicle `revenue / vehicle_count`
when the vehicle counter is positive and 0 when it is zero, so a report with
zero vehicles served yields 0 instead of a division error. -/
theorem c7_average (s : SmartParkingSystem) :
    (s.vehicles_today = 0 → (s.daily_report.1).avg = 0) ∧
    (0 < s.vehicles_today →
      (s.daily_report.1).avg = s.revenue_today / (s.vehicles_today : ℚ)) := by
  unfold SmartParkingSystem.daily_report
  constructor
  · intro h
    simp [h]
  · intro h
    simp [Nat.pos_iff_ne_zero.mp h]

/-- Witness for C7: a fresh three-slot system has served zero vehicles and
its report's average is 0. -/
theorem c7_average_witness : ((init 3).daily_report.1).avg = 0 :=
  (c7_average (init 3)).1 rfl

/-- C9: the pricing table is exactly bike {base 10, hourly 5},
car {base 20, hourly 10}, ev {base 25, hourly 12}, heavy {base 50,
hourly 25}, and no other class is configured. -/
theorem c9_pricing_table :
    pricing "bike" = some ⟨10, 5⟩ ∧ pricing "car" = some ⟨20, 10⟩ ∧
    pricing "ev" = some ⟨25, 12⟩ ∧ pricing "heavy" = some ⟨50, 25⟩ ∧
    ∀ t : String, (pricing t).isSome →
      t = "bike" ∨ t = "car" ∨ t = "ev" ∨ t = "heavy" := by
  refine ⟨by decide, by decide, by decide, by decide, ?_⟩
  intro t ht
  unfold pricing at ht
  split_ifs at ht with h1 h2 h3 h4
  · exact Or.inl h1
  · exact Or.inr (Or.inl h2)
  · exact Or.inr (Or.inr (Or.inl h3))
  · exact Or.inr (Or.inr (Or.inr h4))
  · simp at ht

/-- Witness for C9: "ev" is a configured class, so it is one of the four. -/
theorem c9_pricing_table_witness :
    "ev" = "bike" ∨ "ev" = "car" ∨ "ev" = "ev" ∨ "ev" = "heavy" :=
  c9_pricing_table.2.2.2.2 "ev" (by decide)

/-- C2: `vehicle_entry` fails with `InvalidClass` exactly on unconfigured
classes; with a valid class it fails with `FacilityFull` exactly when every
slot in range is occupied; otherwise it succeeds, writes the occupancy into
the lowest-indexed free slot (that slot was free, every lower slot was
occupied, every other slot is untouched), increments the daily vehicle
counter by one, and leaves the revenue accumulator alone. -/
theorem c2_entry_correct (s : SmartParkingSystem) (vno vt : String) (now : ℚ) :
    (pricing vt = none → s.vehicle_entry vno vt now = (.error .invalidClass, s)) ∧
    (pricing vt ≠ none →
      (∀ j : ℤ, 1 ≤ j → j ≤ (s.parking_slots.length : ℤ) → s.getSlot j ≠ none) →
      s.vehicle_entry vno vt now = (.error .facilityFull, s)) ∧
    (pricing vt ≠ none →
      ∀ j0 : ℤ, 1 ≤ j0 → j0 ≤ (s.parking_slots.length : ℤ) → s.getSlot j0 = none →
      ∃ k : ℕ,
        (s.vehicle_entry vno vt now).1 = .ok (k, now) ∧
        1 ≤ k ∧ (k : ℤ) ≤ (s.parking_slots.length : ℤ) ∧
        s.getSlot (k : ℤ) = none ∧
        (∀ j : ℤ, 1 ≤ j → j < (k : ℤ) → s.getSlot j ≠ none) ∧
        ((s.vehicle_entry vno vt now).2).getSlot (k : ℤ) = some ⟨vno, vt, now⟩ ∧
        (∀ j : ℤ, j ≠ (k : ℤ) →
          ((s.vehicle_entry vno vt now).2).getSlot j = s.getSlot j) ∧
        ((s.vehicle_entry vno vt now).2).vehicles_today = s.vehicles_today + 1 ∧
        ((s.vehicle_entry vno vt now).2).revenue_today = s.revenue_today) := by
  refine ⟨fun h => vehicle_entry_invalid s vno vt now h,
          fun hvt hall => ?_,
          fun hvt j0 hj01 hj02 hj0 => ?_⟩
  · cases hf : s.find_free_slot with
    | none => exact vehicle_entry_full s vno vt now hvt hf
    | some k =>
        obtain ⟨hk1, hk2, hk3, -⟩ := find_free_slot_some s k hf
        exact absurd hk3 (hall (k : ℤ) (by omega) hk2)
  · cases hf : s.find_free_slot with
    | none => exact absurd hj0 (find_free_slot_none s hf j0 hj01 hj02)
    | some k =>
        obtain ⟨hk1, hk2, hk3, hk4⟩ := find_free_slot_some s k hf
        refine ⟨k, ?_, hk1, hk2, hk3, hk4, ?_, ?_, ?_, ?_⟩
        · rw [vehicle_entry_found s vno vt now k hvt hf]
        · rw [vehicle_entry_found s vno vt now k hvt hf]
          have hc : ((k - 1 : ℕ) : ℤ) + 1 = (k : ℤ) := by omega
          rw [← hc]
          exact getSlot_set_eq s _ (k - 1) _ rfl (by omega)
        · intro j hj
          rw [vehicle_entry_found s vno vt now k hvt hf]
          exact getSlot_set_ne s _ (k - 1) _ rfl j (by omega)
        · rw [vehicle_entry_found s vno vt now k hvt hf]
        · rw [vehicle_entry_found s vno vt now k hvt hf]

/-- Witness for C2: a fresh two-slot system admits a car (slot 1 is free),
and the admission succeeds. -/
theorem c2_entry_correct_witness :
    ∃ k : ℕ, ((init 2).vehicle_entry "KA01" "car" 0).1 = Except.ok (k, 0) := by
  obtain ⟨k, hk, -⟩ := (c2_entry_correct (init 2) "KA01" "car" 0).2.2
    (by decide) 1 (by decide) (by decide) (by decide)
  exact ⟨k, hk⟩

/-- C5: after a successful release of an occupied slot, that slot is free,
and an immediately following admission with a valid class succeeds; the slot
it assigns is no higher than the released one, and if every lower slot is
still occupied it is exactly the released slot. -/
theorem c5_release_then_admit (s : SmartParkingSystem) (slot : ℤ) (now now' : ℚ)
    (v : Occupancy) (vno vt : String)
    (hv : s.getSlot slot = some v) (hvt : pricing vt ≠ none) :
    ((s.vehicle_exit slot now).2).getSlot slot = none ∧
    ∃ k : ℕ,
      (((s.vehicle_exit slot now).2).vehicle_entry vno vt now').1 = .ok (k, now') ∧
      (k : ℤ) ≤ slot ∧
      ((∀ j : ℤ, 1 ≤ j → j < slot → ((s.vehicle_exit slot now).2).getSlot j ≠ none) →
        (k : ℤ) = slot) := by
  have hrange : 1 ≤ slot ∧ slot ≤ (s.parking_slots.length : ℤ) := by
    by_contra hc
    rw [getSlot_out_of_range s slot (by omega)] at hv
    exact Option.noConfusion hv
  have hfree : ((s.vehicle_exit slot now).2).getSlot slot = none := by
    rw [vehicle_exit_occupied_eq s slot now v hv]
    exact getSlot_set_eq_of s _ (slot - 1).toNat none rfl (by omega) slot (by omega)
  have hlen : (((s.vehicle_exit slot now).2).parking_slots.length : ℤ) =
      (s.parking_slots.length : ℤ) := by
    rw [vehicle_exit_occupied_eq s slot now v hv]
    simp
  refine ⟨hfree, ?_⟩
  cases hf : ((s.vehicle_exit slot now).2).find_free_slot with
  | none =>
      exact absurd hfree
        (find_free_slot_none _ hf slot hrange.1 (by omega))
  | some k =>
      obtain ⟨hk1, hk2, hk3, hk4⟩ := find_free_slot_some _ k hf
      refine ⟨k, ?_, ?_, ?_⟩
      · rw [vehicle_entry_found _ vno vt now' k hvt hf]
      · by_contra hgt
        exact hk4 slot hrange.1 (by omega) hfree
      · intro hall
        by_contra hne
        have hklt : (k : ℤ) < slot := by
          rcases lt_or_le (k : ℤ) slot with h | h
          · exact h
          · exact absurd (le_antisymm (by
              by_contra hgt
              exact hk4 slot hrange.1 (by omega) hfree) h) hne
        exact hall (k : ℤ) (by omega) hklt hk3

/-- Witness for C5: releasing the occupied slot 1 of `exSys` frees it, and an
immediate admission of a bike succeeds and is assigned slot 1 again. -/
theorem c5_release_then_admit_witness :
    ((exSys.vehicle_exit 1 1).2).getSlot 1 = none ∧
    ∃ k : ℕ,
      (((exSys.vehicle_exit 1 1).2).vehicle_entry "KA02" "bike" 2).1 =
        Except.ok (k, 2) ∧
      (k : ℤ) ≤ 1 ∧
      ((∀ j : ℤ, 1 ≤ j → j < 1 → ((exSys.vehicle_exit 1 1).2).getSlot j ≠ none) →
        (k : ℤ) = 1) :=
  c5_release_then_admit exSys 1 1 2 ⟨"KA01", "car", 0⟩ "KA02" "bike"
    (by decide) (by decide)

/-- C6: starting from a fresh system, the revenue accumulator equals the sum
of the charges computed by the successful releases in the operation
sequence, is non-negative, and never decreases across any single
operation. -/
theorem c6_revenue_accounting (n : ℕ) (ops : List Op) :
    (runFrom (init n) ops).revenue_today = (exitCharges (init n) ops).sum ∧
    0 ≤ (runFrom (init n) ops).revenue_today ∧
    ∀ (s : SmartParkingSystem) (op : Op),
      s.revenue_today ≤ (step s op).revenue_today := by
  have h1 : (runFrom (init n) ops).revenue_today = (exitCharges (init n) ops).sum := by
    rw [runFrom_revenue]
    show (0 : ℚ) + _ = _
    ring
  refine ⟨h1, ?_, step_revenue_mono⟩
  rw [h1]
  exact exitCharges_sum_nonneg ops (init n)

/-- C8: the peak-occupancy field of the daily report equals the number of
slot identifiers in [1, number of slots] that are occupied at the instant
the report is generated. -/
theorem c8_peak_occupancy (s : SmartParkingSystem) :
    (s.daily_report.1).peak =
      ((Finset.Icc 1 s.parking_slots.length).filter
        (fun (i : ℕ) => s.getSlot (i : ℤ) ≠ none)).card := by
  have hL : (s.daily_report.1).peak = s.parking_slots.countP (fun v => v.isSome) := rfl
  rw [hL, countP_eq_sum, Finset.card_filter, ← Nat.Ico_succ_right,
      Finset.sum_Ico_eq_sum_range]
  simp only [Nat.succ_sub_one]
  apply Finset.sum_congr rfl
  intro j hj
  rw [Finset.mem_range] at hj
  rw [getSlot_in_range s ((1 + j : ℕ) : ℤ) (by omega) (by omega)]
  have he : (((1 + j : ℕ) : ℤ) - 1).toNat = j := by omega
  rw [he]
  cases h : s.parking_slots.getD j none <;> simp

/-- C10: for every occupied slot whose occupant's class is configured, the
computed charge is at least the class's base charge, hence strictly
positive — also when the duration is negative (clock anomaly), since a
negative duration takes the ≤ 2 h branch — and a successful release
increases the revenue accumulator by at least the base charge. -/
theorem c10_charge_at_least_base (s : SmartParkingSystem) (slot : ℤ) (now : ℚ)
    (v : Occupancy) (r : Rates)
    (hv : s.getSlot slot = some v) (hr : pricing v.vtype = some r) :
    r.base ≤ (s.calculate_charges slot now).1 ∧
    0 < (s.calculate_charges slot now).1 ∧
    s.revenue_today + r.base ≤ ((s.vehicle_exit slot now).2).revenue_today := by
  obtain ⟨z, hz, hz10, hh⟩ :
      ∃ z : ℤ, (z : ℚ) = r.base ∧ 10 ≤ z ∧ 0 ≤ r.hourly := by
    rcases pricing_cases v.vtype r hr with rfl | rfl | rfl | rfl
    · exact ⟨10, by norm_num, by norm_num, by norm_num⟩
    · exact ⟨20, by norm_num, by norm_num, by norm_num⟩
    · exact ⟨25, by norm_num, by norm_num, by norm_num⟩
    · exact ⟨50, by norm_num, by norm_num, by norm_num⟩
  have hle : r.base ≤ (s.calculate_charges slot now).1 := by
    rw [calculate_charges_occupied_eq s slot now v hv, hr]
    simp only [Option.getD_some]
    show r.base ≤ round2 _
    rw [← hz]
    apply round2_int_le
    rw [hz]
    split
    · exact le_refl _
    · next hd =>
        have hm := mul_nonneg (by linarith : (0 : ℚ) ≤ now - v.entry_time - 2) hh
        linarith
  have hz10q : (10 : ℚ) ≤ r.base := by
    rw [← hz]
    exact_mod_cast hz10
  refine ⟨hle, by linarith, ?_⟩
  rw [vehicle_exit_occupied_eq s slot now v hv]
  show s.revenue_today + r.base ≤ s.revenue_today + (s.calculate_charges slot now).1
  linarith

/-- Witness for C10: the car in slot 1 of `exSys` charged at time −1, a
clock anomaly giving duration −1 h, still pays at least its base charge 20,
and releasing it grows the revenue accumulator by at least 20. -/
theorem c10_charge_at_least_base_witness :
    (20 : ℚ) ≤ (exSys.calculate_charges 1 (-1)).1 ∧
    0 < (exSys.calculate_charges 1 (-1)).1 ∧
    exSys.revenue_today + 20 ≤ ((exSys.vehicle_exit 1 (-1)).2).revenue_today :=
  c10_charge_at_least_base exSys 1 (-1) ⟨"KA01", "car", 0⟩ ⟨20, 10⟩
    (by decide) (by decide)

end SmartParking
